import Mathlib

/-! Shallow embedding of the METS bag checker (mets.py): container kind
sniffing, manifest location, and the completeness, fixity and
orphan-detection checks of the class METSPackage. Paths are modelled as
strings manipulated with faithful translations of posixpath.split,
posixpath.join and posixpath.relpath as the Python code uses them; file
bytes are lists of naturals; hash functions are passed in as an explicit
parameter, since the checks only compare their hex-digest output strings. -/

namespace MetsBag

/-- Container backend kind, mirroring the self.package_type tag. -/
inductive PackageType
  | directory
  | zip
  | tar
deriving DecidableEq

/-- One mets:FLocat element of the manifest file section: the xlink:href
attribute together with the enclosing mets:file element's optional
CHECKSUM and CHECKSUMTYPE attributes. -/
structure FLocat where
  href : String
  checksum : Option String
  checksumtype : Option String
deriving DecidableEq

/-- Python exceptions that can escape the modelled code paths. -/
inductive PyError
  | notAContainer
  | manifestReading
  | xmlSyntax
  | attributeError (nm : String)
  | unboundLocal (nm : String)
deriving DecidableEq

/-- Splits a character list on the separator character, like
"a/b".split for a single-character separator. -/
def splitSlashAux : List Char → List Char → List (List Char)
  | [], cur => [cur.reverse]
  | c :: rest, cur =>
    if c == '/' then cur.reverse :: splitSlashAux rest []
    else splitSlashAux rest (c :: cur)

def splitSlash (cs : List Char) : List (List Char) :=
  splitSlashAux cs []

def dropTrailingSlashes (cs : List Char) : List Char :=
  (cs.reverse.dropWhile (fun c => c == '/')).reverse

/-- Head component of posixpath.split: everything before the final slash,
with trailing slashes stripped unless the head is empty or all slashes. -/
def splitHeadChars (cs : List Char) : List Char :=
  let i := cs.length - (cs.reverse.takeWhile (fun c => !(c == '/'))).length
  let head := cs.take i
  if head.isEmpty || head.all (fun c => c == '/') then head
  else dropTrailingSlashes head

/-- Model of path.split(p)[0] as used throughout mets.py to obtain the
directory containing the manifest entry. -/
def pySplitHead (p : String) : String :=
  String.mk (splitHeadChars p.toList)

/-- Model of the two-argument posixpath.join. -/
def pyJoin (a b : String) : String :=
  if b.toList.head? == some '/' then b
  else if a == "" || a.toList.getLast? == some '/' then a ++ b
  else a ++ "/" ++ b

/-- Normalized path components of a relative path: empty and dot
components dropped, a dot-dot component pops the previous one, as the
abspath normalization inside posixpath.relpath does for the relative
paths the checker manipulates. -/
def normParts (p : String) : List String :=
  (((splitSlash p.toList).map (fun cs => String.mk cs)).filter
      (fun s => !(s == "") && !(s == "."))).foldl
    (fun acc s => if s == ".." then acc.dropLast else acc ++ [s]) []

def commonLen : List String → List String → Nat
  | a :: as, b :: bs => if a == b then commonLen as bs + 1 else 0
  | _, _ => 0

def joinSlash : List String → String
  | [] => ""
  | [s] => s
  | s :: rest => s ++ "/" ++ joinSlash rest

/-- Model of posixpath.relpath(p, start) for the relative, package-rooted
paths the checker passes to it. -/
def pyRelpath (p start : String) : String :=
  let pl := normParts p
  let sl := normParts start
  let i := commonLen sl pl
  let rel := List.replicate (sl.length - i) ".." ++ pl.drop i
  if rel.isEmpty then "." else joinSlash rel

/-- Closed enumeration of the checksum algorithms the checker knows. -/
inductive HashAlg
  | md5
  | sha1
  | sha256
  | sha384
  | sha512
deriving DecidableEq

/-- The if/elif dispatch of mets.py lines 209-218 and 292-301 on the
CHECKSUMTYPE attribute value: the five literal strings are recognized,
anything else leaves the local variable unassigned. -/
def algOfString (s : String) : Option HashAlg :=
  if s == "MD5" then some .md5
  else if s == "SHA-1" then some .sha1
  else if s == "SHA-256" then some .sha256
  else if s == "SHA-384" then some .sha384
  else if s == "SHA-512" then some .sha512
  else none

/-- Hex-digest oracle: the checker only compares digest strings, so the
hash functions are a parameter of the embedding. -/
abbrev HashFn := HashAlg → List Nat → String

/-- State of a constructed METSPackage object: backend kind, the cached
entry list, the located manifest entry, the parsed file-section (none
models the absence of the self.xml attribute, i.e. a manifest that is not
well-formed), and the bytes of each entry, keyed by package-root-relative
path. -/
structure METSPackage where
  packageType : PackageType
  packageFiles : List String
  manifestPath : String
  xml : Option (List FLocat)
  contents : String → List Nat

/-- Resolution of a declared reference against the directory containing
the manifest entry: path.join(path.split(manifest_path)[0], href). -/
def METSPackage.resolve (p : METSPackage) (href : String) : String :=
  pyJoin (pySplitHead p.manifestPath) href

/-- Property has_wellformed_manifest: hasattr(self, "xml"). -/
def METSPackage.has_wellformed_manifest (p : METSPackage) : Bool :=
  p.xml.isSome

/-- Method listReferencedFiles: the xlink:href of every FLocat in
document order, or the empty list when self.xml is absent. -/
def METSPackage.listReferencedFiles (p : METSPackage) : List String :=
  match p.xml with
  | none => []
  | some fl => fl.map (fun f => f.href)

/-- Loop body of is_complete: returns False at the first reference whose
resolved path is not a package entry. -/
def completeLoop (p : METSPackage) : List String → Bool
  | [] => true
  | f :: rest =>
    if p.packageFiles.contains (p.resolve f) then completeLoop p rest
    else false

/-- Property is_complete of mets.py. -/
def METSPackage.is_complete (p : METSPackage) : Bool :=
  match p.xml with
  | none => false
  | some _ => completeLoop p p.listReferencedFiles

/-- Loop body of listMissingFiles: appends the declared reference string
when its resolved path is not a package entry. -/
def missingLoop (p : METSPackage) (acc : List String) : List String → List String
  | [] => acc
  | f :: rest =>
    if p.packageFiles.contains (p.resolve f) then missingLoop p acc rest
    else missingLoop p (acc ++ [f]) rest

/-- Method listMissingFiles of mets.py; it does not test for self.xml
itself, but listReferencedFiles yields the empty list in that case. -/
def METSPackage.listMissingFiles (p : METSPackage) : List String :=
  missingLoop p [] p.listReferencedFiles

/-- The if/elif chain's effect on the local variable holding the hash
object: a recognized CHECKSUMTYPE binds a fresh accumulator, an
unrecognized one leaves the variable as it was, possibly unassigned. -/
def dispatchChecksum (ctype : String) (cur : Option (HashAlg × List Nat)) :
    Option (HashAlg × List Nat) :=
  match algOfString ctype with
  | some a => some (a, [])
  | none => cur

/-- Loop of listAlteredFiles over the FLocat elements. The second loop
argument is the state of the function-local hash-object variable, which
persists across iterations; reading it while still unassigned is the
UnboundLocalError of the Python code. -/
def fixityLoop (H : HashFn) (p : METSPackage) :
    List FLocat → Option (HashAlg × List Nat) → List String → List String →
      Except PyError (List String × List String)
  | [], _, alt, unc => .ok (alt, unc)
  | f :: rest, cur, alt, unc =>
    if p.packageFiles.contains (p.resolve f.href) then
      match f.checksum, f.checksumtype with
      | some digest, some ctype =>
        match dispatchChecksum ctype cur with
        | none => .error (.unboundLocal "checksum")
        | some (a, acc) =>
          if H a (acc ++ p.contents (p.resolve f.href)) ≠ digest then
            fixityLoop H p rest (some (a, acc ++ p.contents (p.resolve f.href)))
              (alt ++ [p.resolve f.href]) unc
          else
            fixityLoop H p rest (some (a, acc ++ p.contents (p.resolve f.href)))
              alt unc
      | _, _ => fixityLoop H p rest cur alt (unc ++ [p.resolve f.href])
    else
      fixityLoop H p rest cur alt unc

/-- Method listAlteredFiles of mets.py. When self.xml is absent the loop
body is skipped, but the archive-handle close statements at lines 338-341
still run, reading the never-assigned zip_file or tar_file variable. -/
def METSPackage.listAlteredFiles (H : HashFn) (p : METSPackage) :
    Except PyError (List String × List String) :=
  match p.xml with
  | some fl => fixityLoop H p fl none [] []
  | none =>
    match p.packageType with
    | .zip => .error (.unboundLocal "zip_file")
    | .tar => .error (.unboundLocal "tar_file")
    | .directory => .ok ([], [])

/-- Loop of is_unaltered: same per-reference classification as
listAlteredFiles, but returns False at the first mismatch or at the
first present reference lacking checksum metadata. -/
def unalteredLoop (H : HashFn) (p : METSPackage) :
    List FLocat → Option (HashAlg × List Nat) → Except PyError Bool
  | [], _ => .ok true
  | f :: rest, cur =>
    if p.packageFiles.contains (p.resolve f.href) then
      match f.checksum, f.checksumtype with
      | some digest, some ctype =>
        match dispatchChecksum ctype cur with
        | none => .error (.unboundLocal "checksum")
        | some (a, acc) =>
          if H a (acc ++ p.contents (p.resolve f.href)) ≠ digest then .ok false
          else unalteredLoop H p rest (some (a, acc ++ p.contents (p.resolve f.href)))
      | _, _ => .ok false
    else
      unalteredLoop H p rest cur

/-- Property is_unaltered of mets.py. -/
def METSPackage.is_unaltered (H : HashFn) (p : METSPackage) :
    Except PyError Bool :=
  match p.xml with
  | some fl => unalteredLoop H p fl none
  | none => .ok false

/-- Loop of listOrphanFiles: a package entry is an orphan when its path
relative to the manifest's directory is not among the declared references
and it is not the manifest entry itself. -/
def orphanLoop (p : METSPackage) (refs : List String) (acc : List String) :
    List String → List String
  | [] => acc
  | e :: rest =>
    if !(refs.contains (pyRelpath e (pySplitHead p.manifestPath))) && !(e == p.manifestPath) then
      orphanLoop p refs (acc ++ [e]) rest
    else
      orphanLoop p refs acc rest

/-- Method listOrphanFiles of mets.py. -/
def METSPackage.listOrphanFiles (p : METSPackage) : List String :=
  match p.xml with
  | none => []
  | some _ => orphanLoop p p.listReferencedFiles [] p.packageFiles

/-- Loop of has_no_orphan_files: returns False at the first orphan. -/
def noOrphanLoop (p : METSPackage) (refs : List String) : List String → Bool
  | [] => true
  | e :: rest =>
    if !(refs.contains (pyRelpath e (pySplitHead p.manifestPath))) && !(e == p.manifestPath) then
      false
    else
      noOrphanLoop p refs rest

/-- Property has_no_orphan_files of mets.py. -/
def METSPackage.has_no_orphan_files (p : METSPackage) : Bool :=
  match p.xml with
  | none => false
  | some _ => noOrphanLoop p p.listReferencedFiles p.packageFiles

/-- What the filesystem says about the path handed to the constructor:
an existing regular file (with the verdicts of zipfile.is_zipfile and
tarfile.is_tarfile on its bytes), an existing directory, or nothing. -/
inductive PathKind
  | file (isZip : Bool) (isTar : Bool)
  | dir
  | missing
deriving DecidableEq

/-- Outcome of handing an entry's bytes to the XML parser: a parsed file
section, an XMLSyntaxError, or an OSError while reading. -/
inductive ParseOutcome
  | parsed (fl : List FLocat)
  | syntaxError
  | osError

/-- Construction-time inputs of METSPackage.__init__: the path's kind,
the backend's entry list, the manifest pattern as the substring-match
predicate re.search provides, and the parser's outcome per entry. -/
structure RawInput where
  pathKind : PathKind
  entries : List String
  patMatches : String → Bool
  parse : String → ParseOutcome
  contents : String → List Nat

/-- Lines 48-56 of mets.py: the package_type attribute after the
isfile/isdir branch; an existing file that is neither ZIP nor TAR leaves
the attribute unassigned (the inner chain has no else branch), and only
a path that is neither a file nor a directory raises NotAContainerError. -/
def sniffType : PathKind → Except PyError (Option PackageType)
  | .file z t => .ok (if z then some .zip else if t then some .tar else none)
  | .dir => .ok (some .directory)
  | .missing => .error .notAContainer

/-- Method find_manifest of mets.py: the first entry matched by
re.search wins; its bytes are parsed at once. An XMLSyntaxError is not
caught (the inner except clause catches OSError only) and propagates; an
OSError becomes ManifestReadingError, which also propagates. When no
entry matches, the return statement reads the unset manifest_path
attribute, and the AttributeError handler's f-string reads it again, so
an AttributeError escapes instead of the intended ManifestNotFoundError. -/
def find_manifest (inp : RawInput) : Except PyError (String × List FLocat) :=
  match inp.entries.find? (fun e => inp.patMatches e) with
  | none => .error (.attributeError "manifest_path")
  | some mp =>
    match inp.parse mp with
    | .parsed fl => .ok (mp, fl)
    | .syntaxError => .error .xmlSyntax
    | .osError => .error .manifestReading

/-- METSPackage.__init__: sniff the container kind, then locate and
parse the manifest; listPackageFiles reads package_type first, so an
unassigned package_type surfaces as an AttributeError there. -/
def METSPackage_init (inp : RawInput) : Except PyError METSPackage :=
  match sniffType inp.pathKind with
  | .error e => .error e
  | .ok none => .error (.attributeError "package_type")
  | .ok (some ty) =>
    match find_manifest inp with
    | .error e => .error e
    | .ok (mp, fl) =>
      .ok { packageType := ty, packageFiles := inp.entries,
            manifestPath := mp, xml := some fl, contents := inp.contents }

/-- Degenerate digest oracle used to instantiate witnesses: the claims
under test never depend on digest values, only on string comparison. -/
def H0 : HashFn := fun _ _ => "d0"

/-- Concrete directory package for the completeness witness: one
reference present, one absent. -/
def pkgC4 : METSPackage :=
  { packageType := .directory
  , packageFiles := ["manifest.xml", "data/a.txt"]
  , manifestPath := "manifest.xml"
  , xml := some [⟨"data/a.txt", none, none⟩, ⟨"data/b.txt", none, none⟩]
  , contents := fun _ => [] }

/-- Concrete directory package for the orphan witness: one referenced
entry, one unreferenced entry beside the manifest. -/
def pkgC6 : METSPackage :=
  { packageType := .directory
  , packageFiles := ["manifest.xml", "data/a.txt", "data/extra.txt"]
  , manifestPath := "manifest.xml"
  , xml := some [⟨"data/a.txt", none, none⟩]
  , contents := fun _ => [] }

/-- Concrete package for the absent-reference witness: the single
reference resolves to a path that is not a package entry. -/
def pkgC3 : METSPackage :=
  { packageType := .directory
  , packageFiles := ["manifest.xml"]
  , manifestPath := "manifest.xml"
  , xml := some [⟨"b.txt", some "d0", some "MD5"⟩]
  , contents := fun _ => [] }

/-- Alternative byte assignment differing from pkgC3's only at the
absent reference's resolved path. -/
def c3fn (s : String) : List Nat :=
  if s = "b.txt" then [7] else []

/-- Concrete package for the unaltered-iff witness: one present
reference without checksum metadata. -/
def pkgC5 : METSPackage :=
  { packageType := .directory
  , packageFiles := ["manifest.xml", "b.txt"]
  , manifestPath := "manifest.xml"
  , xml := some [⟨"b.txt", none, none⟩]
  , contents := fun _ => [] }

/-- Concrete package for the resolved-versus-declared witness: the
manifest sits in a subdirectory, so resolution actually changes the
reference strings; one reference is present without metadata, one is
absent. -/
def pkgC10 : METSPackage :=
  { packageType := .directory
  , packageFiles := ["sub/manifest.xml", "sub/b.txt"]
  , manifestPath := "sub/manifest.xml"
  , xml := some [⟨"b.txt", none, none⟩, ⟨"c.txt", none, none⟩]
  , contents := fun _ => [] }

/-- Concrete package exhibiting the unrecognized-algorithm crash: a
present reference carrying CHECKSUM and an unrecognized CHECKSUMTYPE as
the first checksummed reference of the document. -/
def pkgC2 : METSPackage :=
  { packageType := .directory
  , packageFiles := ["manifest.xml", "a.txt"]
  , manifestPath := "manifest.xml"
  , xml := some [⟨"a.txt", some "00", some "CRC32"⟩]
  , contents := fun _ => [1] }

/-- Concrete zip package state with the self.xml attribute absent. -/
def pkgC7 : METSPackage :=
  { packageType := .zip
  , packageFiles := ["manifest.xml"]
  , manifestPath := "manifest.xml"
  , xml := none
  , contents := fun _ => [] }

/-- Construction input whose manifest entry is matched but whose bytes
are not well-formed XML. -/
def inpC1 : RawInput :=
  { pathKind := .dir
  , entries := ["manifest.xml"]
  , patMatches := fun s => s == "manifest.xml"
  , parse := fun _ => .syntaxError
  , contents := fun _ => [] }

/-- Construction input that is an existing regular file recognized as
neither a ZIP nor a TAR archive. -/
def inpC8 : RawInput :=
  { pathKind := .file false false
  , entries := ["manifest.xml"]
  , patMatches := fun s => s == "manifest.xml"
  , parse := fun _ => .parsed []
  , contents := fun _ => [] }

/-- Construction input (an existing directory) in which no entry matches
the manifest pattern. -/
def inpC9 : RawInput :=
  { pathKind := .dir
  , entries := ["a.txt"]
  , patMatches := fun _ => false
  , parse := fun _ => .parsed []
  , contents := fun _ => [] }

/-- Characterization predicate used in theorem statements: the reference
is present in the package but lacks a CHECKSUM or a CHECKSUMTYPE
attribute, which is exactly what the code routes to unchecked_files. -/
def presentNoMeta (p : METSPackage) (f : FLocat) : Bool :=
  p.packageFiles.contains (p.resolve f.href) &&
    (f.checksum.isNone || f.checksumtype.isNone)

/-- Proof device: the effect of one iteration of the fixity loop on the
hash-object variable and on the two diagnostic lists. -/
inductive StepRes
  | crash
  | step (cur' : Option (HashAlg × List Nat)) (da du : List String)

/-- Proof device computing the effect of one fixity-loop iteration. -/
def stepOf (H : HashFn) (p : METSPackage) (f : FLocat)
    (cur : Option (HashAlg × List Nat)) : StepRes :=
  if p.packageFiles.contains (p.resolve f.href) then
    match f.checksum, f.checksumtype with
    | some digest, some ctype =>
      match dispatchChecksum ctype cur with
      | none => .crash
      | some (a, acc) =>
        if H a (acc ++ p.contents (p.resolve f.href)) ≠ digest then
          .step (some (a, acc ++ p.contents (p.resolve f.href))) [p.resolve f.href] []
        else
          .step (some (a, acc ++ p.contents (p.resolve f.href))) [] []
    | _, _ => .step cur [] [p.resolve f.href]
  else .step cur [] []

theorem contains_iff_mem {l : List String} {x : String} :
    l.contains x = true ↔ x ∈ l := by
  induction l with
  | nil => simp
  | cons a as ih => simp [List.contains] at ih ⊢

theorem completeLoop_eq_all (p : METSPackage) (l : List String) :
    completeLoop p l = l.all (fun s => p.packageFiles.contains (p.resolve s)) := by
  induction l with
  | nil => simp [completeLoop]
  | cons f rest ih =>
    by_cases hc : p.resolve f ∈ p.packageFiles <;>
      simp [completeLoop, hc, ih]

theorem missingLoop_eq (p : METSPackage) (l : List String) :
    ∀ acc, missingLoop p acc l =
      acc ++ l.filter (fun s => !(p.packageFiles.contains (p.resolve s))) := by
  induction l with
  | nil => intro acc; simp [missingLoop]
  | cons f rest ih =>
    intro acc
    by_cases hc : p.resolve f ∈ p.packageFiles <;>
      simp [missingLoop, hc, ih]

theorem orphanLoop_eq (p : METSPackage) (refs : List String) (l : List String) :
    ∀ acc, orphanLoop p refs acc l =
      acc ++ l.filter
        (fun e => !(refs.contains (pyRelpath e (pySplitHead p.manifestPath))) &&
          !(e == p.manifestPath)) := by
  induction l with
  | nil => intro acc; simp [orphanLoop]
  | cons e rest ih =>
    intro acc
    by_cases hc : pyRelpath e (pySplitHead p.manifestPath) ∈ refs <;>
      by_cases hm : e = p.manifestPath <;>
        simp [orphanLoop, hc, hm, ih]

theorem noOrphanLoop_isEmpty (p : METSPackage) (refs : List String) (l : List String) :
    noOrphanLoop p refs l = (orphanLoop p refs [] l).isEmpty := by
  induction l with
  | nil => simp [noOrphanLoop, orphanLoop]
  | cons e rest ih =>
    by_cases hc : pyRelpath e (pySplitHead p.manifestPath) ∈ refs <;>
      by_cases hm : e = p.manifestPath <;>
        simp [noOrphanLoop, orphanLoop, orphanLoop_eq, hc, hm, ih]

/-- C4: for a well-formed package, is_complete is true iff the reference
list is empty or every reference, resolved against the directory
containing the manifest entry, is a package entry; and listMissingFiles
is exactly the sublist of declared (unresolved) references whose resolved
path is absent, in manifest document order. -/
theorem C4_completeness (p : METSPackage) (fl : List FLocat) (hx : p.xml = some fl) :
    (p.is_complete = true ↔
      (p.listReferencedFiles = [] ∨
        ∀ s ∈ p.listReferencedFiles, p.resolve s ∈ p.packageFiles)) ∧
    p.listMissingFiles =
      p.listReferencedFiles.filter (fun s => !(p.packageFiles.contains (p.resolve s))) := by
  constructor
  · simp only [METSPackage.is_complete, hx]
    rw [completeLoop_eq_all]
    constructor
    · intro h
      right
      intro s hs
      have hall := List.all_eq_true.1 h s hs
      exact contains_iff_mem.1 hall
    · intro h
      rcases h with h | h
      · simp [h]
      · exact List.all_eq_true.2 fun s hs => contains_iff_mem.2 (h s hs)
  · rw [METSPackage.listMissingFiles, missingLoop_eq]
    simp

theorem C4_completeness_witness :
    (pkgC4.is_complete = true ↔
      (pkgC4.listReferencedFiles = [] ∨
        ∀ s ∈ pkgC4.listReferencedFiles, pkgC4.resolve s ∈ pkgC4.packageFiles)) ∧
    pkgC4.listMissingFiles =
      pkgC4.listReferencedFiles.filter
        (fun s => !(pkgC4.packageFiles.contains (pkgC4.resolve s))) :=
  C4_completeness pkgC4 [⟨"data/a.txt", none, none⟩, ⟨"data/b.txt", none, none⟩] rfl

/-- C6: for a well-formed package, the orphan list is the backend entry
list restricted to entries that are neither the manifest entry nor, once
made relative to the manifest's containing directory, a declared
reference; and has_no_orphan_files is true iff that list is empty. -/
theorem C6_orphans (p : METSPackage) (fl : List FLocat) (hx : p.xml = some fl) :
    p.listOrphanFiles = p.packageFiles.filter
      (fun e => !(p.listReferencedFiles.contains (pyRelpath e (pySplitHead p.manifestPath))) &&
        !(e == p.manifestPath)) ∧
    (p.has_no_orphan_files = true ↔ p.listOrphanFiles = []) := by
  have horph : p.listOrphanFiles = p.packageFiles.filter
      (fun e => !(p.listReferencedFiles.contains (pyRelpath e (pySplitHead p.manifestPath))) &&
        !(e == p.manifestPath)) := by
    simp only [METSPackage.listOrphanFiles, hx]
    rw [orphanLoop_eq]
    simp
  refine ⟨horph, ?_⟩
  simp only [METSPackage.has_no_orphan_files, hx]
  rw [noOrphanLoop_isEmpty]
  have horl : orphanLoop p p.listReferencedFiles [] p.packageFiles = p.listOrphanFiles := by
    simp only [METSPackage.listOrphanFiles, hx]
  rw [horl]
  exact List.isEmpty_iff

theorem C6_orphans_witness :
    pkgC6.listOrphanFiles = pkgC6.packageFiles.filter
      (fun e => !(pkgC6.listReferencedFiles.contains (pyRelpath e (pySplitHead pkgC6.manifestPath))) &&
        !(e == pkgC6.manifestPath)) ∧
    (pkgC6.has_no_orphan_files = true ↔ pkgC6.listOrphanFiles = []) :=
  C6_orphans pkgC6 [⟨"data/a.txt", none, none⟩] rfl

theorem fixityLoop_cons (H : HashFn) (p : METSPackage) (f : FLocat)
    (rest : List FLocat) (cur : Option (HashAlg × List Nat)) (alt unc : List String) :
    fixityLoop H p (f :: rest) cur alt unc =
      match stepOf H p f cur with
      | .crash => .error (.unboundLocal "checksum")
      | .step cur' da du => fixityLoop H p rest cur' (alt ++ da) (unc ++ du) := by
  by_cases hcont : p.resolve f.href ∈ p.packageFiles
  · rcases hcs : f.checksum with _ | digest <;> rcases hct : f.checksumtype with _ | ctype
    · simp [fixityLoop, stepOf, hcs, hct, hcont]
    · simp [fixityLoop, stepOf, hcs, hct, hcont]
    · simp [fixityLoop, stepOf, hcs, hct, hcont]
    · cases hd : dispatchChecksum ctype cur with
      | none => simp [fixityLoop, stepOf, hcs, hct, hcont, hd]
      | some pr =>
        rcases pr with ⟨a, acc⟩
        by_cases hne : H a (acc ++ p.contents (p.resolve f.href)) = digest <;>
          simp [fixityLoop, stepOf, hcs, hct, hcont, hd, hne]
  · simp [fixityLoop, stepOf, hcont]

theorem unalteredLoop_cons (H : HashFn) (p : METSPackage) (f : FLocat)
    (rest : List FLocat) (cur : Option (HashAlg × List Nat)) :
    unalteredLoop H p (f :: rest) cur =
      match stepOf H p f cur with
      | .crash => .error (.unboundLocal "checksum")
      | .step cur' da du =>
        if da.isEmpty && du.isEmpty then unalteredLoop H p rest cur' else .ok false := by
  by_cases hcont : p.resolve f.href ∈ p.packageFiles
  · rcases hcs : f.checksum with _ | digest <;> rcases hct : f.checksumtype with _ | ctype
    · simp [unalteredLoop, stepOf, hcs, hct, hcont]
    · simp [unalteredLoop, stepOf, hcs, hct, hcont]
    · simp [unalteredLoop, stepOf, hcs, hct, hcont]
    · cases hd : dispatchChecksum ctype cur with
      | none => simp [unalteredLoop, stepOf, hcs, hct, hcont, hd]
      | some pr =>
        rcases pr with ⟨a, acc⟩
        by_cases hne : H a (acc ++ p.contents (p.resolve f.href)) = digest <;>
          simp [unalteredLoop, stepOf, hcs, hct, hcont, hd, hne]
  · simp [unalteredLoop, stepOf, hcont]

theorem step_du (H : HashFn) (p : METSPackage) (f : FLocat)
    (cur cur' : Option (HashAlg × List Nat)) (da du : List String)
    (h : stepOf H p f cur = .step cur' da du) :
    du = if presentNoMeta p f then [p.resolve f.href] else [] := by
  by_cases hcont : p.resolve f.href ∈ p.packageFiles
  · rcases hcs : f.checksum with _ | digest <;> rcases hct : f.checksumtype with _ | ctype
    · simp [stepOf, hcs, hct, hcont] at h
      simp [presentNoMeta, hcs, hct, hcont, h]
    · simp [stepOf, hcs, hct, hcont] at h
      simp [presentNoMeta, hcs, hct, hcont, h]
    · simp [stepOf, hcs, hct, hcont] at h
      simp [presentNoMeta, hcs, hct, hcont, h]
    · simp only [stepOf, hcs, hct] at h
      rw [if_pos (by simpa [contains_iff_mem] using hcont)] at h
      cases hd : dispatchChecksum ctype cur with
      | none => rw [hd] at h; simp at h
      | some pr =>
        rcases pr with ⟨a, acc⟩
        rw [hd] at h
        by_cases hne : H a (acc ++ p.contents (p.resolve f.href)) = digest <;>
          · simp [hne] at h
            simp [presentNoMeta, hcs, hct, h]
  · simp [stepOf, hcont] at h
    simp [presentNoMeta, hcont, h]

theorem step_da (H : HashFn) (p : METSPackage) (f : FLocat)
    (cur cur' : Option (HashAlg × List Nat)) (da du : List String)
    (h : stepOf H p f cur = .step cur' da du) :
    da = [] ∨ (da = [p.resolve f.href] ∧ p.resolve f.href ∈ p.packageFiles ∧
      f.checksum.isSome = true ∧ f.checksumtype.isSome = true) := by
  by_cases hcont : p.resolve f.href ∈ p.packageFiles
  · rcases hcs : f.checksum with _ | digest <;> rcases hct : f.checksumtype with _ | ctype
    · simp [stepOf, hcs, hct, hcont] at h
      simp [h]
    · simp [stepOf, hcs, hct, hcont] at h
      simp [h]
    · simp [stepOf, hcs, hct, hcont] at h
      simp [h]
    · simp only [stepOf, hcs, hct] at h
      rw [if_pos (by simpa [contains_iff_mem] using hcont)] at h
      cases hd : dispatchChecksum ctype cur with
      | none => rw [hd] at h; simp at h
      | some pr =>
        rcases pr with ⟨a, acc⟩
        rw [hd] at h
        by_cases hne : H a (acc ++ p.contents (p.resolve f.href)) = digest
        · simp [hne] at h
          simp [h]
        · simp [hne] at h
          right
          simp [h, hcont, hcs, hct]
  · simp [stepOf, hcont] at h
    simp [h]

theorem fixityLoop_acc (H : HashFn) (p : METSPackage) (fl : List FLocat) :
    ∀ (cur : Option (HashAlg × List Nat)) (alt unc : List String),
    fixityLoop H p fl cur alt unc =
      match fixityLoop H p fl cur [] [] with
      | .ok (a, u) => .ok (alt ++ a, unc ++ u)
      | .error e => .error e := by
  induction fl with
  | nil => intro cur alt unc; simp [fixityLoop]
  | cons f rest ih =>
    intro cur alt unc
    rw [fixityLoop_cons, fixityLoop_cons]
    cases hst : stepOf H p f cur with
    | crash => simp
    | step cur' da du =>
      simp only [List.nil_append]
      rw [ih cur' (alt ++ da) (unc ++ du), ih cur' da du]
      cases hres : fixityLoop H p rest cur' [] [] with
      | error e => simp
      | ok r => rcases r with ⟨a, u⟩; simp

theorem unaltered_of_fixity (H : HashFn) (p : METSPackage) (fl : List FLocat) :
    ∀ (cur : Option (HashAlg × List Nat)) (a u : List String),
    fixityLoop H p fl cur [] [] = .ok (a, u) →
    unalteredLoop H p fl cur = .ok (a.isEmpty && u.isEmpty) := by
  induction fl with
  | nil =>
    intro cur a u h
    simp [fixityLoop] at h
    obtain ⟨rfl, rfl⟩ := h
    simp [unalteredLoop]
  | cons f rest ih =>
    intro cur a u h
    rw [fixityLoop_cons] at h
    rw [unalteredLoop_cons]
    cases hst : stepOf H p f cur with
    | crash => rw [hst] at h; simp at h
    | step cur' da du =>
      rw [hst] at h
      simp only [List.nil_append] at h
      rw [fixityLoop_acc] at h
      cases hres : fixityLoop H p rest cur' [] [] with
      | error e => rw [hres] at h; simp at h
      | ok r =>
        rcases r with ⟨a', u'⟩
        rw [hres] at h
        simp only [Except.ok.injEq, Prod.mk.injEq] at h
        rcases h with ⟨ha, hu⟩
        cases da with
        | cons x xs => simp [← ha, ← hu]
        | nil =>
          cases du with
          | cons y ys => simp [← ha, ← hu]
          | nil =>
            have hrec := ih cur' a' u' hres
            simp only [List.nil_append] at ha hu
            simp [← ha, ← hu, hrec]

theorem fixity_ok_spec (H : HashFn) (p : METSPackage) (fl : List FLocat) :
    ∀ (cur : Option (HashAlg × List Nat)) (a u : List String),
    fixityLoop H p fl cur [] [] = .ok (a, u) →
    u = (fl.filter (fun f => presentNoMeta p f)).map (fun f => p.resolve f.href) ∧
    (∀ x ∈ a, ∃ f ∈ fl, x = p.resolve f.href ∧ p.resolve f.href ∈ p.packageFiles ∧
      f.checksum.isSome = true ∧ f.checksumtype.isSome = true) := by
  induction fl with
  | nil =>
    intro cur a u h
    simp [fixityLoop] at h
    obtain ⟨rfl, rfl⟩ := h
    simp
  | cons f rest ih =>
    intro cur a u h
    rw [fixityLoop_cons] at h
    cases hst : stepOf H p f cur with
    | crash => rw [hst] at h; simp at h
    | step cur' da du =>
      rw [hst] at h
      simp only [List.nil_append] at h
      rw [fixityLoop_acc] at h
      cases hres : fixityLoop H p rest cur' [] [] with
      | error e => rw [hres] at h; simp at h
      | ok r =>
        rcases r with ⟨a', u'⟩
        rw [hres] at h
        simp only [Except.ok.injEq, Prod.mk.injEq] at h
        rcases h with ⟨ha, hu⟩
        have hdu := step_du H p f cur cur' da du hst
        have hda := step_da H p f cur cur' da du hst
        have hrec := ih cur' a' u' hres
        constructor
        · rw [← hu, hdu, hrec.1]
          by_cases hpm : presentNoMeta p f = true
          · simp [List.filter_cons, hpm]
          · simp [List.filter_cons, hpm]
        · intro x hx
          rw [← ha] at hx
          rcases List.mem_append.1 hx with hx | hx
          · rcases hda with hda | ⟨hda, hmem, hsome, htsome⟩
            · rw [hda] at hx; simp at hx
            · rw [hda] at hx
              simp at hx
              exact ⟨f, by simp, by simp [hx, hmem, hsome, htsome]⟩
          · rcases hrec.2 x hx with ⟨g, hg, hrest⟩
            exact ⟨g, by simp [hg], hrest⟩

theorem fixityLoop_congr_contents (H : HashFn) (p : METSPackage)
    (c' : String → List Nat) (r : String)
    (hr : r ∉ p.packageFiles) (hagree : ∀ s, s ≠ r → c' s = p.contents s) :
    ∀ (fl : List FLocat) (cur : Option (HashAlg × List Nat)) (alt unc : List String),
    fixityLoop H { p with contents := c' } fl cur alt unc =
      fixityLoop H p fl cur alt unc := by
  intro fl
  induction fl with
  | nil => intro cur alt unc; simp [fixityLoop]
  | cons f rest ih =>
    intro cur alt unc
    by_cases hcont : p.resolve f.href ∈ p.packageFiles
    · have hne : p.resolve f.href ≠ r := fun he => hr (he ▸ hcont)
      have hcc : c' (p.resolve f.href) = p.contents (p.resolve f.href) := hagree _ hne
      rcases hcs : f.checksum with _ | digest <;> rcases hct : f.checksumtype with _ | ctype
      · simp [fixityLoop, METSPackage.resolve, hcs, hct,
          (show pyJoin (pySplitHead p.manifestPath) f.href ∈ p.packageFiles from hcont), ih]
      · simp [fixityLoop, METSPackage.resolve, hcs, hct,
          (show pyJoin (pySplitHead p.manifestPath) f.href ∈ p.packageFiles from hcont), ih]
      · simp [fixityLoop, METSPackage.resolve, hcs, hct,
          (show pyJoin (pySplitHead p.manifestPath) f.href ∈ p.packageFiles from hcont), ih]
      · cases hd : dispatchChecksum ctype cur with
        | none =>
          simp [fixityLoop, METSPackage.resolve, hcs, hct, hd,
            (show pyJoin (pySplitHead p.manifestPath) f.href ∈ p.packageFiles from hcont)]
        | some pr =>
          rcases pr with ⟨al, acc⟩
          by_cases hne2 : H al (acc ++ p.contents (p.resolve f.href)) = digest <;>
            simp [fixityLoop, METSPackage.resolve, hcs, hct, hd, ih,
              (show pyJoin (pySplitHead p.manifestPath) f.href ∈ p.packageFiles from hcont),
              (show c' (pyJoin (pySplitHead p.manifestPath) f.href) =
                p.contents (pyJoin (pySplitHead p.manifestPath) f.href) from hcc),
              (show (H al (acc ++ p.contents (pyJoin (pySplitHead p.manifestPath) f.href)) =
                digest) = (H al (acc ++ p.contents (p.resolve f.href)) = digest) from rfl),
              hne2]
    · simp [fixityLoop, METSPackage.resolve,
        (show pyJoin (pySplitHead p.manifestPath) f.href ∉ p.packageFiles from hcont), ih]

/-- C3: a reference whose resolved path is absent from the backend's
entry list appears, as declared, in the missing list; it appears in
neither the altered nor the unchecked list returned by listAlteredFiles;
and no checksum comparison reads its bytes: the fixity result is
unchanged under any reassignment of the contents at that resolved path. -/
theorem C3_absent_reference (p : METSPackage) (fl : List FLocat) (f : FLocat)
    (H : HashFn) (a u : List String) (c' : String → List Nat)
    (hx : p.xml = some fl) (hf : f ∈ fl)
    (habs : p.resolve f.href ∉ p.packageFiles)
    (hok : METSPackage.listAlteredFiles H p = .ok (a, u))
    (hagree : ∀ s, s ≠ p.resolve f.href → c' s = p.contents s) :
    f.href ∈ p.listMissingFiles ∧ p.resolve f.href ∉ a ∧ p.resolve f.href ∉ u ∧
      METSPackage.listAlteredFiles H { p with contents := c' } = .ok (a, u) := by
  have hfix : fixityLoop H p fl none [] [] = .ok (a, u) := by
    simpa [METSPackage.listAlteredFiles, hx] using hok
  have hspec := fixity_ok_spec H p fl none a u hfix
  refine ⟨?_, ?_, ?_, ?_⟩
  · rw [METSPackage.listMissingFiles, missingLoop_eq]
    simp only [List.nil_append]
    apply List.mem_filter.2
    refine ⟨?_, ?_⟩
    · simp only [METSPackage.listReferencedFiles, hx]
      exact List.mem_map.2 ⟨f, hf, rfl⟩
    · simp [habs]
  · intro hxa
    rcases hspec.2 _ hxa with ⟨g, hg, hxeq, hmem, _, _⟩
    rw [← hxeq] at hmem
    exact habs hmem
  · intro hxu
    rw [hspec.1] at hxu
    rcases List.mem_map.1 hxu with ⟨g, hgf, hend⟩
    have hgmem := (List.mem_filter.1 hgf).2
    simp only [presentNoMeta, Bool.and_eq_true] at hgmem
    have := contains_iff_mem.1 hgmem.1
    rw [hend] at this
    exact habs this
  · have hcon := fixityLoop_congr_contents H p c' (p.resolve f.href) habs hagree fl none [] []
    simp only [METSPackage.listAlteredFiles, hx]
    rw [hx] at hcon
    exact hcon.trans hfix

theorem C3_absent_reference_witness :
    "b.txt" ∈ pkgC3.listMissingFiles ∧
    pkgC3.resolve "b.txt" ∉ ([] : List String) ∧
    pkgC3.resolve "b.txt" ∉ ([] : List String) ∧
    METSPackage.listAlteredFiles H0 { pkgC3 with contents := c3fn } = .ok ([], []) :=
  C3_absent_reference pkgC3 [⟨"b.txt", some "d0", some "MD5"⟩]
    ⟨"b.txt", some "d0", some "MD5"⟩ H0 [] [] c3fn rfl (by decide) (by decide) rfl
    (fun s hs => if_neg hs)

/-- C5: for a well-formed package whose fixity pass returns its two
lists, is_unaltered is true exactly when both the altered and the
unchecked list are empty; in particular any present reference lacking
checksum metadata forces is_unaltered away from true even though no
mismatch was proven. -/
theorem C5_unaltered_iff (p : METSPackage) (fl : List FLocat) (H : HashFn)
    (a u : List String) (hx : p.xml = some fl)
    (hok : METSPackage.listAlteredFiles H p = .ok (a, u)) :
    (METSPackage.is_unaltered H p = .ok true ↔ (a = [] ∧ u = [])) ∧
    (∀ f ∈ fl, p.resolve f.href ∈ p.packageFiles →
      (f.checksum = none ∨ f.checksumtype = none) →
      METSPackage.is_unaltered H p ≠ .ok true) := by
  have hfix : fixityLoop H p fl none [] [] = .ok (a, u) := by
    simpa [METSPackage.listAlteredFiles, hx] using hok
  have hun := unaltered_of_fixity H p fl none a u hfix
  have hiu : METSPackage.is_unaltered H p = .ok (a.isEmpty && u.isEmpty) := by
    simpa [METSPackage.is_unaltered, hx] using hun
  have hmain : METSPackage.is_unaltered H p = .ok true ↔ (a = [] ∧ u = []) := by
    rw [hiu]
    constructor
    · intro h
      simp only [Except.ok.injEq, Bool.and_eq_true, List.isEmpty_iff] at h
      exact h
    · rintro ⟨rfl, rfl⟩
      simp
  refine ⟨hmain, ?_⟩
  intro f hf hpres hmeta
  have hu := (fixity_ok_spec H p fl none a u hfix).1
  have hpm : presentNoMeta p f = true := by
    simp only [presentNoMeta, Bool.and_eq_true, Bool.or_eq_true]
    refine ⟨contains_iff_mem.2 hpres, ?_⟩
    rcases hmeta with h | h
    · left; simp [h]
    · right; simp [h]
  have hmemu : p.resolve f.href ∈ u := by
    rw [hu]
    exact List.mem_map.2 ⟨f, List.mem_filter.2 ⟨hf, hpm⟩, rfl⟩
  intro hcontra
  rcases hmain.1 hcontra with ⟨-, rfl⟩
  simp at hmemu

theorem C5_unaltered_iff_witness :
    (METSPackage.is_unaltered H0 pkgC5 = .ok true ↔
      (([] : List String) = [] ∧ ["b.txt"] = ([] : List String))) ∧
    (∀ f ∈ [(⟨"b.txt", none, none⟩ : FLocat)], pkgC5.resolve f.href ∈ pkgC5.packageFiles →
      (f.checksum = none ∨ f.checksumtype = none) →
      METSPackage.is_unaltered H0 pkgC5 ≠ .ok true) :=
  C5_unaltered_iff pkgC5 [⟨"b.txt", none, none⟩] H0 [] ["b.txt"] rfl rfl

/-- C10: the entries of the unchecked list are the resolved paths of the
present references lacking metadata (in document order), every entry of
the altered list is the resolved path of some present checksummed
reference, and the missing list holds the declared reference strings. -/
theorem C10_resolved_vs_declared (p : METSPackage) (fl : List FLocat) (H : HashFn)
    (a u : List String) (hx : p.xml = some fl)
    (hok : METSPackage.listAlteredFiles H p = .ok (a, u)) :
    u = (fl.filter (fun f => presentNoMeta p f)).map (fun f => p.resolve f.href) ∧
    (∀ x ∈ a, ∃ f ∈ fl, x = p.resolve f.href ∧ p.resolve f.href ∈ p.packageFiles ∧
      f.checksum.isSome = true ∧ f.checksumtype.isSome = true) ∧
    p.listMissingFiles =
      (fl.map (fun f => f.href)).filter (fun s => !(p.packageFiles.contains (p.resolve s))) := by
  have hfix : fixityLoop H p fl none [] [] = .ok (a, u) := by
    simpa [METSPackage.listAlteredFiles, hx] using hok
  have hspec := fixity_ok_spec H p fl none a u hfix
  refine ⟨hspec.1, hspec.2, ?_⟩
  rw [METSPackage.listMissingFiles, missingLoop_eq]
  simp [METSPackage.listReferencedFiles, hx]

theorem C10_resolved_vs_declared_witness :
    ["sub/b.txt"] =
      (([⟨"b.txt", none, none⟩, ⟨"c.txt", none, none⟩] : List FLocat).filter
        (fun f => presentNoMeta pkgC10 f)).map (fun f => pkgC10.resolve f.href) ∧
    (∀ x ∈ ([] : List String), ∃ f ∈ ([⟨"b.txt", none, none⟩, ⟨"c.txt", none, none⟩] : List FLocat),
      x = pkgC10.resolve f.href ∧ pkgC10.resolve f.href ∈ pkgC10.packageFiles ∧
      f.checksum.isSome = true ∧ f.checksumtype.isSome = true) ∧
    pkgC10.listMissingFiles =
      (([⟨"b.txt", none, none⟩, ⟨"c.txt", none, none⟩] : List FLocat).map (fun f => f.href)).filter
        (fun s => !(pkgC10.packageFiles.contains (pkgC10.resolve s))) :=
  C10_resolved_vs_declared pkgC10 [⟨"b.txt", none, none⟩, ⟨"c.txt", none, none⟩]
    H0 [] ["sub/b.txt"] rfl rfl

/-- C1 (divergence): on a package whose manifest entry is found but whose
bytes are not well-formed XML, the XMLSyntaxError escapes the except
OSError clause and construction aborts instead of succeeding with
wellformed = false. -/
theorem C1_illformed_manifest_aborts :
    METSPackage_init inpC1 = .error .xmlSyntax := rfl

/-- C2 (divergence): a present reference carrying a CHECKSUM and an
unrecognized CHECKSUMTYPE hits the unassigned hash-object variable, so
both fixity operations raise UnboundLocalError instead of routing the
reference to unchecked. -/
theorem C2_unrecognized_algorithm_crashes :
    METSPackage.listAlteredFiles H0 pkgC2 = .error (.unboundLocal "checksum") ∧
    METSPackage.is_unaltered H0 pkgC2 = .error (.unboundLocal "checksum") :=
  ⟨rfl, rfl⟩

/-- C7 (divergence): with wellformed = false, listAlteredFiles reaches
the archive-handle close statements outside the gate and raises
UnboundLocalError for the zip and tar backends; only the directory
backend returns the claimed empty lists. -/
theorem C7_close_handles_unbound :
    METSPackage.listAlteredFiles H0 pkgC7 = .error (.unboundLocal "zip_file") ∧
    METSPackage.listAlteredFiles H0 { pkgC7 with packageType := .tar } =
      .error (.unboundLocal "tar_file") ∧
    METSPackage.listAlteredFiles H0 { pkgC7 with packageType := .directory } = .ok ([], []) :=
  ⟨rfl, rfl, rfl⟩

/-- C8 (divergence): an existing regular file that is neither a ZIP nor
a TAR leaves package_type unassigned, so construction raises
AttributeError instead of NotAContainerError. -/
theorem C8_plain_file_attribute_error :
    METSPackage_init inpC8 = .error (.attributeError "package_type") := rfl

/-- C9 (divergence): when no entry matches the manifest pattern, the
error handler's message reads the unset manifest_path attribute, so an
AttributeError escapes instead of ManifestNotFoundError. -/
theorem C9_no_match_attribute_error :
    METSPackage_init inpC9 = .error (.attributeError "manifest_path") := rfl

end MetsBag
